import Mathlib

/-!
# LogisticSystem.cpp: a shallow embedding of the logistics registry

Modelling conventions, all read off `src/LogisticSystem.cpp`.

* `std::string` is a Lean `String`, a sequence of Unicode characters;
  `operator==` is `=`; the ordering of `std::map<string, string>` keys
  (`std::less<std::string>`, lexicographic on the bytes) is the lexicographic
  order of `String.toList`, which is the same order on UTF-8 text and in
  particular on ASCII text.
* `std::cout` is the list of records written, in order: one record for each
  message statement, one for each call of `Shipment::updateStatus`, one for
  each call of `Vehicle::printDetails`, one for each route printed.  The
  byte stream on the terminal is the concatenation of the records.
* A `void` member function that may change its object returns the new object
  together with the records it wrote; one that only prints returns its
  records.
* `vector<shared_ptr<T>>` is a `List T` in insertion order.  Every element the
  program stores is freshly allocated at the call site (`make_shared`, lines
  176 and 185), so no two stored elements are the same object and an element
  is identified with its value.
* `unique_ptr<ShipmentState>` is one of the three concrete subclasses; the
  program never passes a null state to the registry (line 217 returns first).
* `std::map<string, string>` is the list of its entries in iteration order,
  that is strictly ascending by key (`StdMapInv`).
* `cin >> x` is modelled by passing the token read as an argument.
-/

namespace Logistics

/-! ## Shipment states (lines 12-38) -/

/-- The dynamic type of a `ShipmentState` object: `Pending`, `InTransit` or
`Delivered`. -/
inductive ShipmentState where
  | Pending
  | InTransit
  | Delivered
  deriving DecidableEq, Repr

/-- Text written by the virtual `updateStatus()` of each state class
(lines 21-23, 28-30, 35-37). -/
def ShipmentState.updateStatus : ShipmentState → String
  | .Pending => "Shipment is pending.\n"
  | .InTransit => "Shipment is in transit.\n"
  | .Delivered => "Shipment has been delivered.\n"

/-! ## Shipment (lines 40-60) -/

/-- Fields of `class Shipment`. -/
structure Shipment where
  shipmentID : String
  state : ShipmentState
  deriving DecidableEq, Repr

/-- Constructor `Shipment(string id)` (line 46): the state starts as `Pending`. -/
def Shipment.new (id : String) : Shipment :=
  { shipmentID := id, state := ShipmentState.Pending }

/-- Member `Shipment::setState` (lines 48-50): `state = move(newState)`,
nothing is written. -/
def Shipment.setState (self : Shipment) (newState : ShipmentState) :
    Shipment × List String :=
  ({ self with state := newState }, [])

/-- Member `Shipment::updateStatus` (lines 52-55): writes the id and then the
text of the current state; the shipment is not changed. -/
def Shipment.updateStatus (self : Shipment) : List String :=
  ["Shipment ID: " ++ self.shipmentID ++ " -> " ++ self.state.updateStatus]

/-- Member `Shipment::getShipmentID` (lines 57-59). -/
def Shipment.getShipmentID (self : Shipment) : String :=
  self.shipmentID

/-! ## Vehicle (lines 62-77) -/

/-- Fields of `class Vehicle`. -/
structure Vehicle where
  vehicleID : String
  currentLocation : String
  deriving DecidableEq, Repr

/-- Constructor `Vehicle(string id, string location)` (line 68). -/
def Vehicle.new (id location : String) : Vehicle :=
  { vehicleID := id, currentLocation := location }

/-- Member `Vehicle::updateLocation` (lines 70-72). -/
def Vehicle.updateLocation (self : Vehicle) (newLocation : String) :
    Vehicle × List String :=
  ({ self with currentLocation := newLocation }, [])

/-- Member `Vehicle::printDetails` (lines 74-76). -/
def Vehicle.printDetails (self : Vehicle) : List String :=
  ["Vehicle ID: " ++ self.vehicleID ++ ", Current Location: "
    ++ self.currentLocation ++ "\n"]

/-! ## ShipmentRoute (lines 79-93) -/

/-- The comparison `std::less<std::string>` used by the map: lexicographic
order on the character sequences. -/
def strLess (a b : String) : Bool :=
  decide (a.toList < b.toList)

/-- The statement `m[key] = value` on a `std::map<string, string>` given as
its entry list in key order: walk past the smaller keys, then either insert
a new entry in front of the first larger key or assign the value of the
equivalent key. -/
def mapAssign (key value : String) : List (String × String) → List (String × String)
  | [] => [(key, value)]
  | (k, v) :: rest =>
    if strLess key k then (key, value) :: (k, v) :: rest
    else if strLess k key then (k, v) :: mapAssign key value rest
    else (k, value) :: rest

/-- The representation invariant of a `std::map`: entries strictly ascending
by key. -/
def StdMapInv (m : List (String × String)) : Prop :=
  m.Pairwise (fun a b => a.1 < b.1)

/-- Field of `class ShipmentRoute`: `map<string, string> routes`. -/
structure ShipmentRoute where
  routes : List (String × String)
  deriving DecidableEq, Repr

/-- Member `ShipmentRoute::addRoute` (lines 84-86): `routes[start] = end`. -/
def ShipmentRoute.addRoute (self : ShipmentRoute) (start endLoc : String) :
    ShipmentRoute × List String :=
  ({ routes := mapAssign start endLoc self.routes }, [])

/-- Member `ShipmentRoute::printRoutes` (lines 88-92): one record for each
entry, in map iteration order. -/
def ShipmentRoute.printRoutes (self : ShipmentRoute) : List String :=
  self.routes.map (fun route => "Route from " ++ route.1 ++ " to " ++ route.2 ++ "\n")

/-! ## LogisticsSystem (lines 95-152) -/

/-- Fields of `class LogisticsSystem`. -/
structure LogisticsSystem where
  vehicles : List Vehicle
  shipments : List Shipment
  shipmentRoutes : ShipmentRoute
  deriving DecidableEq, Repr

/-- A default-constructed `LogisticsSystem` (line 248). -/
def LogisticsSystem.empty : LogisticsSystem :=
  { vehicles := [], shipments := [], shipmentRoutes := { routes := [] } }

/-- Member `LogisticsSystem::addVehicle` (lines 103-105): `push_back`. -/
def LogisticsSystem.addVehicle (self : LogisticsSystem) (vehicle : Vehicle) :
    LogisticsSystem × List String :=
  ({ self with vehicles := self.vehicles ++ [vehicle] }, [])

/-- Member `LogisticsSystem::addShipment` (lines 107-109): `push_back`. -/
def LogisticsSystem.addShipment (self : LogisticsSystem) (shipment : Shipment) :
    LogisticsSystem × List String :=
  ({ self with shipments := self.shipments ++ [shipment] }, [])

/-- Member `LogisticsSystem::addRoute` (lines 111-113). -/
def LogisticsSystem.addRoute (self : LogisticsSystem) (start endLoc : String) :
    LogisticsSystem × List String :=
  let r := self.shipmentRoutes.addRoute start endLoc
  ({ self with shipmentRoutes := r.1 }, r.2)

/-- The `for` loop of `LogisticsSystem::updateShipmentStatus` (lines 116-122)
over the shipments still to visit: `some` of the updated list and the records
written when a shipment matched (the `return` of line 120), `none` when the
loop ran to its end. -/
def scanShipments (shipmentID : String) (newState : ShipmentState) :
    List Shipment → Option (List Shipment × List String)
  | [] => none
  | shipment :: rest =>
    if shipment.getShipmentID = shipmentID then
      let r := shipment.setState newState
      some (r.1 :: rest, r.2 ++ r.1.updateStatus)
    else
      match scanShipments shipmentID newState rest with
      | some (rest', out) => some (shipment :: rest', out)
      | none => none

/-- Member `LogisticsSystem::updateShipmentStatus` (lines 115-124). -/
def LogisticsSystem.updateShipmentStatus (self : LogisticsSystem)
    (shipmentID : String) (newState : ShipmentState) : LogisticsSystem × List String :=
  match scanShipments shipmentID newState self.shipments with
  | some (shipments', out) => ({ self with shipments := shipments' }, out)
  | none => (self, ["Shipment ID not found!\n"])

/-- Member `LogisticsSystem::trackShipments` (lines 126-130). -/
def LogisticsSystem.trackShipments (self : LogisticsSystem) : List String :=
  (self.shipments.map Shipment.updateStatus).flatten

/-- Member `LogisticsSystem::trackVehicleLocation` (lines 132-136). -/
def LogisticsSystem.trackVehicleLocation (self : LogisticsSystem) : List String :=
  (self.vehicles.map Vehicle.printDetails).flatten

/-- Member `LogisticsSystem::getShipmentRoutes` (lines 138-140). -/
def LogisticsSystem.getShipmentRoutes (self : LogisticsSystem) : ShipmentRoute :=
  self.shipmentRoutes

/-- The `for` loop of `LogisticsSystem::updateVehicleLocation` (lines 143-149)
over the vehicles still to visit: `some` of the updated list and the records
written when a vehicle matched, `none` when the loop ran to its end. -/
def scanVehicles (vehicleID newLocation : String) :
    List Vehicle → Option (List Vehicle × List String)
  | [] => none
  | vehicle :: rest =>
    if vehicle.vehicleID = vehicleID then
      let r := vehicle.updateLocation newLocation
      some (r.1 :: rest, r.2 ++ ["Vehicle location updated successfully!\n"])
    else
      match scanVehicles vehicleID newLocation rest with
      | some (rest', out) => some (vehicle :: rest', out)
      | none => none

/-- Member `LogisticsSystem::updateVehicleLocation` (lines 142-151). -/
def LogisticsSystem.updateVehicleLocation (self : LogisticsSystem)
    (vehicleID newLocation : String) : LogisticsSystem × List String :=
  match scanVehicles vehicleID newLocation self.vehicles with
  | some (vehicles', out) => ({ self with vehicles := vehicles' }, out)
  | none => (self, ["Vehicle ID not found!\n"])

/-! ## The menu functions (lines 169-245) -/

/-- Free function `addVehicle(LogisticsSystem&)` (lines 170-178); the two
arguments are the tokens read from `cin`. -/
def addVehicle (system : LogisticsSystem) (vehicleID location : String) :
    LogisticsSystem × List String :=
  let r := system.addVehicle (Vehicle.new vehicleID location)
  (r.1, ["Enter vehicle ID: ", "Enter vehicle location: "] ++ r.2
    ++ ["Vehicle added successfully!\n"])

/-- Free function `addShipment(LogisticsSystem&)` (lines 181-187). -/
def addShipment (system : LogisticsSystem) (shipmentID : String) :
    LogisticsSystem × List String :=
  let r := system.addShipment (Shipment.new shipmentID)
  (r.1, ["Enter shipment ID: "] ++ r.2 ++ ["Shipment added successfully!\n"])

/-- Free function `updateShipmentStatus(LogisticsSystem&)` (lines 201-221);
`shipmentID` and `status` are the two tokens read from `cin`. -/
def updateShipmentStatus (system : LogisticsSystem) (shipmentID status : String) :
    LogisticsSystem × List String :=
  let asked := ["Enter shipment ID: ", "Enter new status (Pending, InTransit, Delivered): "]
  if status = "Pending" then
    let r := system.updateShipmentStatus shipmentID ShipmentState.Pending
    (r.1, asked ++ r.2)
  else if status = "InTransit" then
    let r := system.updateShipmentStatus shipmentID ShipmentState.InTransit
    (r.1, asked ++ r.2)
  else if status = "Delivered" then
    let r := system.updateShipmentStatus shipmentID ShipmentState.Delivered
    (r.1, asked ++ r.2)
  else
    (system, asked ++ ["Invalid status!\n"])

/-- Free function `printRoutes(LogisticsSystem&)` (lines 243-245). -/
def printRoutes (system : LogisticsSystem) : List String :=
  system.getShipmentRoutes.printRoutes

/-! ## Call sequences -/

/-- Performs a sequence of `ShipmentRoute::addRoute(start, end)` calls, first
call first. -/
def runRoutes (calls : List (String × String)) (table : ShipmentRoute) : ShipmentRoute :=
  calls.foldl (fun t c => (t.addRoute c.1 c.2).1) table

/-- The end location given by the last call in `calls` whose start is `start`. -/
def lastEnd (start : String) (calls : List (String × String)) : Option String :=
  (calls.reverse.find? (fun c => decide (c.1 = start))).map Prod.snd

/-! ## Sample data -/

/-- A registry with one vehicle, two shipments sharing an id and one route. -/
def sampleSystem : LogisticsSystem :=
  { vehicles := [Vehicle.new "V1" "Chicago", Vehicle.new "V2" "Boston", Vehicle.new "V1" "Austin"],
    shipments := [Shipment.new "S0", Shipment.new "S1", Shipment.new "S1"],
    shipmentRoutes := { routes := [("LA", "SF")] } }

/-- A route table with two routes. -/
def sampleRoutes : ShipmentRoute :=
  { routes := [("LA", "SF"), ("NY", "LA")] }

/-! ## The two linear scans -/

theorem scanShipments_absent (shipmentID : String) (newState : ShipmentState)
    (l : List Shipment) (h : ∀ s ∈ l, s.shipmentID ≠ shipmentID) :
    scanShipments shipmentID newState l = none := by
  induction l with
  | nil => rfl
  | cons s rest ih =>
    have hs : s.shipmentID ≠ shipmentID := h s (List.mem_cons_self _ _)
    have hrest : ∀ x ∈ rest, x.shipmentID ≠ shipmentID :=
      fun x hx => h x (List.mem_cons_of_mem _ hx)
    simp [scanShipments, Shipment.getShipmentID, hs, ih hrest]

theorem scanShipments_first (shipmentID : String) (newState : ShipmentState)
    (pre : List Shipment) (target : Shipment) (post : List Shipment)
    (hpre : ∀ s ∈ pre, s.shipmentID ≠ shipmentID) (ht : target.shipmentID = shipmentID) :
    scanShipments shipmentID newState (pre ++ target :: post) =
      some (pre ++ { shipmentID := shipmentID, state := newState } :: post,
        ["Shipment ID: " ++ shipmentID ++ " -> " ++ newState.updateStatus]) := by
  induction pre with
  | nil =>
    simp [scanShipments, Shipment.getShipmentID, Shipment.setState, Shipment.updateStatus, ht]
  | cons s rest ih =>
    have hs : s.shipmentID ≠ shipmentID := hpre s (List.mem_cons_self _ _)
    have hrest : ∀ x ∈ rest, x.shipmentID ≠ shipmentID :=
      fun x hx => hpre x (List.mem_cons_of_mem _ hx)
    simp [scanShipments, Shipment.getShipmentID, hs, ih hrest]

theorem scanVehicles_absent (vehicleID newLocation : String)
    (l : List Vehicle) (h : ∀ v ∈ l, v.vehicleID ≠ vehicleID) :
    scanVehicles vehicleID newLocation l = none := by
  induction l with
  | nil => rfl
  | cons v rest ih =>
    have hv : v.vehicleID ≠ vehicleID := h v (List.mem_cons_self _ _)
    have hrest : ∀ x ∈ rest, x.vehicleID ≠ vehicleID :=
      fun x hx => h x (List.mem_cons_of_mem _ hx)
    simp [scanVehicles, hv, ih hrest]

theorem scanVehicles_first (vehicleID newLocation : String)
    (pre : List Vehicle) (target : Vehicle) (post : List Vehicle)
    (hpre : ∀ v ∈ pre, v.vehicleID ≠ vehicleID) (ht : target.vehicleID = vehicleID) :
    scanVehicles vehicleID newLocation (pre ++ target :: post) =
      some (pre ++ { vehicleID := vehicleID, currentLocation := newLocation } :: post,
        ["Vehicle location updated successfully!\n"]) := by
  induction pre with
  | nil => simp [scanVehicles, Vehicle.updateLocation, ht]
  | cons v rest ih =>
    have hv : v.vehicleID ≠ vehicleID := hpre v (List.mem_cons_self _ _)
    have hrest : ∀ x ∈ rest, x.vehicleID ≠ vehicleID :=
      fun x hx => hpre x (List.mem_cons_of_mem _ hx)
    simp [scanVehicles, hv, ih hrest]

/-- A list holding an element that satisfies `p` splits at the first such
element. -/
theorem split_at_first {α : Type} (p : α → Prop) (l : List α) (h : ∃ x ∈ l, p x) :
    ∃ pre target post, l = pre ++ target :: post ∧ (∀ x ∈ pre, ¬ p x) ∧ p target := by
  induction l with
  | nil => obtain ⟨x, hx, _⟩ := h; cases hx
  | cons a rest ih =>
    by_cases ha : p a
    · exact ⟨[], a, rest, rfl, by simp, ha⟩
    · have hrest : ∃ x ∈ rest, p x := by
        obtain ⟨x, hx, hpx⟩ := h
        rcases List.mem_cons.mp hx with rfl | hx
        · exact absurd hpx ha
        · exact ⟨x, hx, hpx⟩
      obtain ⟨pre, target, post, hl, hpre, ht⟩ := ih hrest
      refine ⟨a :: pre, target, post, by simp [hl], ?_, ht⟩
      intro x hx
      rcases List.mem_cons.mp hx with rfl | hx
      · exact ha
      · exact hpre x hx

theorem scanShipments_ids (shipmentID : String) (newState : ShipmentState)
    (l l' : List Shipment) (out : List String)
    (h : scanShipments shipmentID newState l = some (l', out)) :
    l'.map Shipment.shipmentID = l.map Shipment.shipmentID := by
  induction l generalizing l' out with
  | nil => simp [scanShipments] at h
  | cons s rest ih =>
    by_cases hs : s.shipmentID = shipmentID
    · simp [scanShipments, Shipment.getShipmentID, hs, Shipment.setState] at h
      obtain ⟨rfl, _⟩ := h
      simp [hs]
    · cases hr : scanShipments shipmentID newState rest with
      | none => simp [scanShipments, Shipment.getShipmentID, hs, hr] at h
      | some r =>
        obtain ⟨r1, r2⟩ := r
        simp [scanShipments, Shipment.getShipmentID, hs, hr] at h
        obtain ⟨rfl, _⟩ := h
        simp [ih r1 r2 hr]

theorem scanVehicles_ids (vehicleID newLocation : String)
    (l l' : List Vehicle) (out : List String)
    (h : scanVehicles vehicleID newLocation l = some (l', out)) :
    l'.map Vehicle.vehicleID = l.map Vehicle.vehicleID := by
  induction l generalizing l' out with
  | nil => simp [scanVehicles] at h
  | cons v rest ih =>
    by_cases hv : v.vehicleID = vehicleID
    · simp [scanVehicles, hv, Vehicle.updateLocation] at h
      obtain ⟨rfl, _⟩ := h
      simp [hv]
    · cases hr : scanVehicles vehicleID newLocation rest with
      | none => simp [scanVehicles, hv, hr] at h
      | some r =>
        obtain ⟨r1, r2⟩ := r
        simp [scanVehicles, hv, hr] at h
        obtain ⟨rfl, _⟩ := h
        simp [ih r1 r2 hr]

theorem flatten_map_singleton {α β : Type} (f : α → β) (l : List α) :
    (l.map (fun a => [f a])).flatten = l.map f := by
  induction l with
  | nil => rfl
  | cons a rest ih => simp [ih]

theorem trackShipments_eq (sys : LogisticsSystem) :
    sys.trackShipments = sys.shipments.map
      (fun s => "Shipment ID: " ++ s.shipmentID ++ " -> " ++ s.state.updateStatus) := by
  unfold LogisticsSystem.trackShipments
  exact flatten_map_singleton _ _

theorem shipment_record_ne_not_found (id d : String) :
    "Shipment ID: " ++ id ++ " -> " ++ d ≠ "Shipment ID not found!\n" := by
  intro h
  have h2 := congrArg String.toList h
  simp [String.toList] at h2

/-! ## Absent ids (C1) -/

/-- C1: an update aimed at an id that no stored shipment (respectively
vehicle) carries writes the not-found record and returns the registry with
its vehicles, shipments and routes exactly as they were; on the empty
registry `updateShipmentStatus("S9", Delivered)` is such a call. -/
theorem update_absent_id_not_found (sys : LogisticsSystem) (id : String)
    (anyStatus : ShipmentState) (anyLocation : String) :
    (id ∉ sys.shipments.map Shipment.shipmentID →
      sys.updateShipmentStatus id anyStatus = (sys, ["Shipment ID not found!\n"])) ∧
    (id ∉ sys.vehicles.map Vehicle.vehicleID →
      sys.updateVehicleLocation id anyLocation = (sys, ["Vehicle ID not found!\n"])) ∧
    LogisticsSystem.empty.updateShipmentStatus "S9" ShipmentState.Delivered =
      (LogisticsSystem.empty, ["Shipment ID not found!\n"]) := by
  refine ⟨?_, ?_, rfl⟩
  · intro h
    have habs : ∀ s ∈ sys.shipments, s.shipmentID ≠ id := by
      intro s hs heq
      exact h (List.mem_map.mpr ⟨s, hs, heq⟩)
    simp [LogisticsSystem.updateShipmentStatus, scanShipments_absent id anyStatus _ habs]
  · intro h
    have habs : ∀ v ∈ sys.vehicles, v.vehicleID ≠ id := by
      intro v hv heq
      exact h (List.mem_map.mpr ⟨v, hv, heq⟩)
    simp [LogisticsSystem.updateVehicleLocation, scanVehicles_absent id anyLocation _ habs]

theorem update_absent_id_not_found_witness :
    "S9" ∉ sampleSystem.shipments.map Shipment.shipmentID ∧
    "S9" ∉ sampleSystem.vehicles.map Vehicle.vehicleID ∧
    sampleSystem.updateShipmentStatus "S9" ShipmentState.InTransit =
      (sampleSystem, ["Shipment ID not found!\n"]) ∧
    sampleSystem.updateVehicleLocation "S9" "Dallas" =
      (sampleSystem, ["Vehicle ID not found!\n"]) :=
  ⟨by decide, by decide,
    (update_absent_id_not_found sampleSystem "S9" ShipmentState.InTransit "Dallas").1 (by decide),
    (update_absent_id_not_found sampleSystem "S9" ShipmentState.InTransit "Dallas").2.1 (by decide)⟩

/-! ## Present ids (C2, C3) -/

/-- C2: when some stored shipment carries `id`, `updateShipmentStatus(id,
newState)` writes the record of `id` with the text of `newState` (not the
not-found record) and the shipment list splits as `pre ++ target :: post`
with no shipment of `pre` carrying `id` and `target` carrying it, such that
only `target` changes, to `id` with `newState`; `pre` and `post`, later
shipments with the same id included, stay as they were.  With the single
shipment "S1", updating to `InTransit` and then tracking writes the in-transit
record of "S1". -/
theorem update_present_shipment_first_match (sys : LogisticsSystem) (id : String)
    (newState : ShipmentState) (h : id ∈ sys.shipments.map Shipment.shipmentID) :
    (∃ pre target post,
      sys.shipments = pre ++ target :: post ∧
      id ∉ pre.map Shipment.shipmentID ∧
      target.shipmentID = id ∧
      sys.updateShipmentStatus id newState =
        ({ sys with shipments := pre ++ { shipmentID := id, state := newState } :: post },
          ["Shipment ID: " ++ id ++ " -> " ++ newState.updateStatus])) ∧
    (sys.updateShipmentStatus id newState).2 ≠ ["Shipment ID not found!\n"] ∧
    ((({ vehicles := [], shipments := [Shipment.new "S1"], shipmentRoutes := { routes := [] } } :
        LogisticsSystem).updateShipmentStatus "S1" ShipmentState.InTransit).1).trackShipments =
      ["Shipment ID: " ++ "S1" ++ " -> " ++ "Shipment is in transit.\n"] := by
  have hex : ∃ s ∈ sys.shipments, s.shipmentID = id := by
    obtain ⟨s, hs, heq⟩ := List.mem_map.mp h
    exact ⟨s, hs, heq⟩
  obtain ⟨pre, target, post, hl, hpre, ht⟩ :=
    split_at_first (fun s : Shipment => s.shipmentID = id) sys.shipments hex
  have hrun : sys.updateShipmentStatus id newState =
      ({ sys with shipments := pre ++ { shipmentID := id, state := newState } :: post },
        ["Shipment ID: " ++ id ++ " -> " ++ newState.updateStatus]) := by
    simp [LogisticsSystem.updateShipmentStatus, hl,
      scanShipments_first id newState pre target post hpre ht]
  refine ⟨⟨pre, target, post, hl, ?_, ht, hrun⟩, ?_, by decide⟩
  · intro hmem
    obtain ⟨s, hs, heq⟩ := List.mem_map.mp hmem
    exact hpre s hs heq
  · rw [hrun]
    intro hbad
    exact shipment_record_ne_not_found id _ (List.cons.inj hbad).1

theorem update_present_shipment_first_match_witness :
    "S1" ∈ sampleSystem.shipments.map Shipment.shipmentID ∧
    ((∃ pre target post,
      sampleSystem.shipments = pre ++ target :: post ∧
      "S1" ∉ pre.map Shipment.shipmentID ∧
      target.shipmentID = "S1" ∧
      sampleSystem.updateShipmentStatus "S1" ShipmentState.Delivered =
        ({ sampleSystem with
            shipments := pre ++ { shipmentID := "S1", state := ShipmentState.Delivered } :: post },
          ["Shipment ID: " ++ "S1" ++ " -> " ++ ShipmentState.Delivered.updateStatus])) ∧
    (sampleSystem.updateShipmentStatus "S1" ShipmentState.Delivered).2 ≠
      ["Shipment ID not found!\n"] ∧
    ((({ vehicles := [], shipments := [Shipment.new "S1"], shipmentRoutes := { routes := [] } } :
        LogisticsSystem).updateShipmentStatus "S1" ShipmentState.InTransit).1).trackShipments =
      ["Shipment ID: " ++ "S1" ++ " -> " ++ "Shipment is in transit.\n"]) :=
  ⟨by decide,
    update_present_shipment_first_match sampleSystem "S1" ShipmentState.Delivered (by decide)⟩

/-- C3: when some stored vehicle carries `id`, `updateVehicleLocation(id,
newLocation)` writes the success record (not the not-found record) and the
vehicle list splits as `pre ++ target :: post` with no vehicle of `pre`
carrying `id` and `target` carrying it, such that only `target` changes, to
`id` with `newLocation`; `pre` and `post`, later vehicles with the same id
included, stay as they were.  Adding ("V1", "Chicago"), updating "V1" to
"Dallas" and tracking writes the record of "V1" at "Dallas". -/
theorem update_present_vehicle_first_match (sys : LogisticsSystem) (id : String)
    (newLocation : String) (h : id ∈ sys.vehicles.map Vehicle.vehicleID) :
    (∃ pre target post,
      sys.vehicles = pre ++ target :: post ∧
      id ∉ pre.map Vehicle.vehicleID ∧
      target.vehicleID = id ∧
      sys.updateVehicleLocation id newLocation =
        ({ sys with vehicles := pre ++ { vehicleID := id, currentLocation := newLocation } :: post },
          ["Vehicle location updated successfully!\n"])) ∧
    (sys.updateVehicleLocation id newLocation).2 ≠ ["Vehicle ID not found!\n"] ∧
    (((LogisticsSystem.empty.addVehicle (Vehicle.new "V1" "Chicago")).1.updateVehicleLocation
        "V1" "Dallas").1).trackVehicleLocation =
      ["Vehicle ID: " ++ "V1" ++ ", Current Location: " ++ "Dallas" ++ "\n"] := by
  have hex : ∃ v ∈ sys.vehicles, v.vehicleID = id := by
    obtain ⟨v, hv, heq⟩ := List.mem_map.mp h
    exact ⟨v, hv, heq⟩
  obtain ⟨pre, target, post, hl, hpre, ht⟩ :=
    split_at_first (fun v : Vehicle => v.vehicleID = id) sys.vehicles hex
  have hrun : sys.updateVehicleLocation id newLocation =
      ({ sys with vehicles := pre ++ { vehicleID := id, currentLocation := newLocation } :: post },
        ["Vehicle location updated successfully!\n"]) := by
    simp [LogisticsSystem.updateVehicleLocation, hl,
      scanVehicles_first id newLocation pre target post hpre ht]
  refine ⟨⟨pre, target, post, hl, ?_, ht, hrun⟩, ?_, by decide⟩
  · intro hmem
    obtain ⟨v, hv, heq⟩ := List.mem_map.mp hmem
    exact hpre v hv heq
  · rw [hrun]
    intro hbad
    exact absurd (List.cons.inj hbad).1 (by decide)

theorem update_present_vehicle_first_match_witness :
    "V1" ∈ sampleSystem.vehicles.map Vehicle.vehicleID ∧
    ((∃ pre target post,
      sampleSystem.vehicles = pre ++ target :: post ∧
      "V1" ∉ pre.map Vehicle.vehicleID ∧
      target.vehicleID = "V1" ∧
      sampleSystem.updateVehicleLocation "V1" "Dallas" =
        ({ sampleSystem with
            vehicles := pre ++ { vehicleID := "V1", currentLocation := "Dallas" } :: post },
          ["Vehicle location updated successfully!\n"])) ∧
    (sampleSystem.updateVehicleLocation "V1" "Dallas").2 ≠ ["Vehicle ID not found!\n"] ∧
    (((LogisticsSystem.empty.addVehicle (Vehicle.new "V1" "Chicago")).1.updateVehicleLocation
        "V1" "Dallas").1).trackVehicleLocation =
      ["Vehicle ID: " ++ "V1" ++ ", Current Location: " ++ "Dallas" ++ "\n"]) :=
  ⟨by decide, update_present_vehicle_first_match sampleSystem "V1" "Dallas" (by decide)⟩

/-! ## Reports after add calls (C4, C7) -/

/-- C7: a shipment constructed with `id` carries that id and the state
`Pending`, whose text is "Shipment is pending."; adding a fresh "S1" to the
empty registry makes `trackShipments` write exactly the pending record of
"S1", and on any registry adding a fresh shipment appends its pending record
to what `trackShipments` wrote before. -/
theorem fresh_shipment_is_pending (id : String) (sys : LogisticsSystem) :
    (Shipment.new id).shipmentID = id ∧
    (Shipment.new id).state = ShipmentState.Pending ∧
    ShipmentState.Pending.updateStatus = "Shipment is pending." ++ "\n" ∧
    (LogisticsSystem.empty.addShipment (Shipment.new "S1")).1.trackShipments =
      ["Shipment ID: " ++ "S1" ++ " -> " ++ "Shipment is pending.\n"] ∧
    (sys.addShipment (Shipment.new id)).1.trackShipments =
      sys.trackShipments ++ ["Shipment ID: " ++ id ++ " -> " ++ "Shipment is pending.\n"] := by
  refine ⟨rfl, rfl, by decide, by decide, ?_⟩
  rw [trackShipments_eq, trackShipments_eq]
  simp [LogisticsSystem.addShipment, Shipment.new, ShipmentState.updateStatus]

/-! ## Shipment::setState (C9) -/

/-- C9 fails as stated: `setState` on the fresh shipment "S1" with `InTransit`
writes nothing, so it does not write the in-transit record of "S1". -/
theorem setState_writes_nothing_example :
    ((Shipment.new "S1").setState ShipmentState.InTransit).2 = [] ∧
    ((Shipment.new "S1").setState ShipmentState.InTransit).2 ≠
      ["Shipment ID: " ++ "S1" ++ " -> " ++ "Shipment is in transit.\n"] := by
  constructor
  · rfl
  · decide

/-- C9 as amended: `setState` replaces the state with the new one whatever
the old one was, keeps the id and writes nothing; the id and the text of the
new state are written by the separate `Shipment::updateStatus`, which
`LogisticsSystem::updateShipmentStatus` calls right after `setState` on the
shipment it matched, at whatever position that shipment is stored: when no
shipment of `pre` carries the id of `s`, the call on `pre ++ s :: post` stores
the result of `setState` in place of `s`, leaves `pre` and `post` alone, and
writes what `setState` wrote (nothing) followed by what `updateStatus` writes
for the updated shipment. -/
theorem setState_replaces_then_updateStatus_writes (s : Shipment) (newState : ShipmentState)
    (vehicles : List Vehicle) (pre post : List Shipment) (routes : ShipmentRoute)
    (hpre : s.shipmentID ∉ pre.map Shipment.shipmentID) :
    (s.setState newState).1 = { shipmentID := s.shipmentID, state := newState } ∧
    (s.setState newState).2 = [] ∧
    (s.setState newState).1.updateStatus =
      ["Shipment ID: " ++ s.shipmentID ++ " -> " ++ newState.updateStatus] ∧
    ({ vehicles := vehicles, shipments := pre ++ s :: post, shipmentRoutes := routes } :
        LogisticsSystem).updateShipmentStatus s.shipmentID newState =
      ({ vehicles := vehicles, shipments := pre ++ (s.setState newState).1 :: post,
         shipmentRoutes := routes },
        (s.setState newState).2 ++ (s.setState newState).1.updateStatus) ∧
    (({ vehicles := vehicles, shipments := pre ++ s :: post, shipmentRoutes := routes } :
        LogisticsSystem).updateShipmentStatus s.shipmentID newState).2 =
      ["Shipment ID: " ++ s.shipmentID ++ " -> " ++ newState.updateStatus] := by
  have habs : ∀ x ∈ pre, x.shipmentID ≠ s.shipmentID := by
    intro x hx heq
    exact hpre (List.mem_map.mpr ⟨x, hx, heq⟩)
  have hscan := scanShipments_first s.shipmentID newState pre s post habs rfl
  have hrun : (LogisticsSystem.mk vehicles (pre ++ s :: post) routes).updateShipmentStatus
        s.shipmentID newState =
      (LogisticsSystem.mk vehicles (pre ++ (s.setState newState).1 :: post) routes,
        (s.setState newState).2 ++ (s.setState newState).1.updateStatus) := by
    simp [LogisticsSystem.updateShipmentStatus, hscan, Shipment.setState, Shipment.updateStatus]
  refine ⟨rfl, rfl, rfl, hrun, ?_⟩
  rw [hrun]
  rfl

theorem setState_replaces_then_updateStatus_writes_witness :
    (Shipment.new "S1").shipmentID ∉ [Shipment.new "S0"].map Shipment.shipmentID ∧
    sampleSystem.updateShipmentStatus "S1" ShipmentState.Delivered =
      (LogisticsSystem.mk sampleSystem.vehicles
          [Shipment.new "S0", ((Shipment.new "S1").setState ShipmentState.Delivered).1,
            Shipment.new "S1"]
          sampleSystem.shipmentRoutes,
        ((Shipment.new "S1").setState ShipmentState.Delivered).2
          ++ ((Shipment.new "S1").setState ShipmentState.Delivered).1.updateStatus) ∧
    (sampleSystem.updateShipmentStatus "S1" ShipmentState.Delivered).2 =
      ["Shipment ID: " ++ "S1" ++ " -> " ++ "Shipment has been delivered.\n"] :=
  ⟨by decide,
    (setState_replaces_then_updateStatus_writes (Shipment.new "S1") ShipmentState.Delivered
      sampleSystem.vehicles [Shipment.new "S0"] [Shipment.new "S1"]
      sampleSystem.shipmentRoutes (by decide)).2.2.2.1,
    (setState_replaces_then_updateStatus_writes (Shipment.new "S1") ShipmentState.Delivered
      sampleSystem.vehicles [Shipment.new "S0"] [Shipment.new "S1"]
      sampleSystem.shipmentRoutes (by decide)).2.2.2.2⟩

/-! ## Frame conditions (C10) -/

/-- C10: every mutating registry operation leaves the two collections it is
not about unchanged, and the two update operations keep the length of their
own collection and the sequence of ids stored in it. -/
theorem mutators_touch_only_their_collection (sys : LogisticsSystem)
    (v : Vehicle) (s : Shipment) (id start endLoc newLocation : String)
    (newState : ShipmentState) :
    ((sys.addVehicle v).1.shipments = sys.shipments ∧
      (sys.addVehicle v).1.shipmentRoutes = sys.shipmentRoutes) ∧
    ((sys.updateVehicleLocation id newLocation).1.shipments = sys.shipments ∧
      (sys.updateVehicleLocation id newLocation).1.shipmentRoutes = sys.shipmentRoutes) ∧
    ((sys.addShipment s).1.vehicles = sys.vehicles ∧
      (sys.addShipment s).1.shipmentRoutes = sys.shipmentRoutes) ∧
    ((sys.updateShipmentStatus id newState).1.vehicles = sys.vehicles ∧
      (sys.updateShipmentStatus id newState).1.shipmentRoutes = sys.shipmentRoutes) ∧
    ((sys.addRoute start endLoc).1.vehicles = sys.vehicles ∧
      (sys.addRoute start endLoc).1.shipments = sys.shipments) ∧
    ((sys.updateVehicleLocation id newLocation).1.vehicles.length = sys.vehicles.length ∧
      (sys.updateVehicleLocation id newLocation).1.vehicles.map Vehicle.vehicleID =
        sys.vehicles.map Vehicle.vehicleID) ∧
    ((sys.updateShipmentStatus id newState).1.shipments.length = sys.shipments.length ∧
      (sys.updateShipmentStatus id newState).1.shipments.map Shipment.shipmentID =
        sys.shipments.map Shipment.shipmentID) := by
  have hv : (sys.updateVehicleLocation id newLocation).1.vehicles.map Vehicle.vehicleID =
      sys.vehicles.map Vehicle.vehicleID := by
    unfold LogisticsSystem.updateVehicleLocation
    split
    · next l' out heq => exact scanVehicles_ids id newLocation _ l' out heq
    · rfl
  have hs : (sys.updateShipmentStatus id newState).1.shipments.map Shipment.shipmentID =
      sys.shipments.map Shipment.shipmentID := by
    unfold LogisticsSystem.updateShipmentStatus
    split
    · next l' out heq => exact scanShipments_ids id newState _ l' out heq
    · rfl
  refine ⟨⟨rfl, rfl⟩, ⟨?_, ?_⟩, ⟨rfl, rfl⟩, ⟨?_, ?_⟩, ⟨rfl, rfl⟩, ⟨?_, hv⟩, ⟨?_, hs⟩⟩
  · unfold LogisticsSystem.updateVehicleLocation; split <;> rfl
  · unfold LogisticsSystem.updateVehicleLocation; split <;> rfl
  · unfold LogisticsSystem.updateShipmentStatus; split <;> rfl
  · unfold LogisticsSystem.updateShipmentStatus; split <;> rfl
  · have := congrArg List.length hv
    simpa using this
  · have := congrArg List.length hs
    simpa using this

/-! ## The menu function for status updates (C8) -/

theorem updateShipmentStatus_records (sys : LogisticsSystem) (id : String)
    (st : ShipmentState) :
    (sys.updateShipmentStatus id st).2 = ["Shipment ID not found!\n"] ∨
    (sys.updateShipmentStatus id st).2 =
      ["Shipment ID: " ++ id ++ " -> " ++ st.updateStatus] := by
  by_cases h : ∃ s ∈ sys.shipments, s.shipmentID = id
  · obtain ⟨pre, target, post, hl, hpre, ht⟩ :=
      split_at_first (fun s : Shipment => s.shipmentID = id) sys.shipments h
    right
    simp [LogisticsSystem.updateShipmentStatus, hl,
      scanShipments_first id st pre target post hpre ht]
  · have habs : ∀ s ∈ sys.shipments, s.shipmentID ≠ id :=
      fun s hs heq => h ⟨s, hs, heq⟩
    left
    simp [LogisticsSystem.updateShipmentStatus, scanShipments_absent id st _ habs]

theorem shipment_record_not_menu_text (id d : String) :
    "Shipment ID: " ++ id ++ " -> " ++ d ∉
      ["Enter shipment ID: ", "Enter new status (Pending, InTransit, Delivered): ",
        "Invalid status!\n"] := by
  intro hmem
  simp only [List.mem_cons, List.mem_singleton, List.not_mem_nil, or_false] at hmem
  rcases hmem with h | h | h <;>
    · have h2 := congrArg String.toList h
      simp [String.toList] at h2

/-- C8: when the status token is none of "Pending", "InTransit", "Delivered"
(compared exactly), the menu function writes its two prompts and then
"Invalid status!", returns the registry unchanged, and writes no record that a
registry call with any status would have written; for each of the three names
the result is that of the registry call with the matching state, after the
two prompts. -/
theorem menu_update_checks_status_name (system : LogisticsSystem)
    (shipmentID status : String) :
    (status ≠ "Pending" → status ≠ "InTransit" → status ≠ "Delivered" →
      updateShipmentStatus system shipmentID status =
        (system, ["Enter shipment ID: ",
          "Enter new status (Pending, InTransit, Delivered): ", "Invalid status!\n"]) ∧
      ∀ st, ∀ r ∈ (system.updateShipmentStatus shipmentID st).2,
        r ∉ (updateShipmentStatus system shipmentID status).2) ∧
    updateShipmentStatus system shipmentID "Pending" =
      ((system.updateShipmentStatus shipmentID ShipmentState.Pending).1,
        ["Enter shipment ID: ", "Enter new status (Pending, InTransit, Delivered): "]
          ++ (system.updateShipmentStatus shipmentID ShipmentState.Pending).2) ∧
    updateShipmentStatus system shipmentID "InTransit" =
      ((system.updateShipmentStatus shipmentID ShipmentState.InTransit).1,
        ["Enter shipment ID: ", "Enter new status (Pending, InTransit, Delivered): "]
          ++ (system.updateShipmentStatus shipmentID ShipmentState.InTransit).2) ∧
    updateShipmentStatus system shipmentID "Delivered" =
      ((system.updateShipmentStatus shipmentID ShipmentState.Delivered).1,
        ["Enter shipment ID: ", "Enter new status (Pending, InTransit, Delivered): "]
          ++ (system.updateShipmentStatus shipmentID ShipmentState.Delivered).2) := by
  refine ⟨?_, ?_, ?_, ?_⟩
  · intro h1 h2 h3
    have hrun : updateShipmentStatus system shipmentID status =
        (system, ["Enter shipment ID: ",
          "Enter new status (Pending, InTransit, Delivered): ", "Invalid status!\n"]) := by
      simp [updateShipmentStatus, h1, h2, h3]
    refine ⟨hrun, ?_⟩
    intro st r hr
    rw [hrun]
    rcases updateShipmentStatus_records system shipmentID st with hout | hout
    · rw [hout] at hr
      rw [List.mem_singleton.mp hr]
      show "Shipment ID not found!\n" ∉ ["Enter shipment ID: ",
        "Enter new status (Pending, InTransit, Delivered): ", "Invalid status!\n"]
      decide
    · rw [hout] at hr
      rw [List.mem_singleton.mp hr]
      exact shipment_record_not_menu_text shipmentID _
  · simp [updateShipmentStatus]
  · simp [updateShipmentStatus]
  · simp [updateShipmentStatus]

theorem menu_update_checks_status_name_witness :
    "pending" ≠ "Pending" ∧ "pending" ≠ "InTransit" ∧ "pending" ≠ "Delivered" ∧
    updateShipmentStatus sampleSystem "S1" "pending" =
      (sampleSystem, ["Enter shipment ID: ",
        "Enter new status (Pending, InTransit, Delivered): ", "Invalid status!\n"]) :=
  ⟨by decide, by decide, by decide,
    ((menu_update_checks_status_name sampleSystem "S1" "pending").1
      (by decide) (by decide) (by decide)).1⟩

/-! ## The route table -/

theorem strLess_iff (a b : String) : strLess a b = true ↔ a < b := by
  simp [strLess, String.lt_iff_toList_lt]

theorem mapAssign_cons (key value k v : String) (rest : List (String × String)) :
    mapAssign key value ((k, v) :: rest) =
      if key < k then (key, value) :: (k, v) :: rest
      else if k < key then (k, v) :: mapAssign key value rest
      else (k, value) :: rest := by
  simp only [mapAssign, strLess_iff]

theorem mem_mapAssign (key value : String) (m : List (String × String))
    (hm : StdMapInv m) (a b : String) :
    (a, b) ∈ mapAssign key value m ↔ (a = key ∧ b = value) ∨ (a ≠ key ∧ (a, b) ∈ m) := by
  induction m with
  | nil => simp [mapAssign]
  | cons e rest ih =>
    obtain ⟨k, v⟩ := e
    obtain ⟨hhead, htail⟩ := List.pairwise_cons.mp hm
    rw [mapAssign_cons]
    rcases lt_trichotomy key k with hlt | heq | hgt
    · rw [if_pos hlt]
      simp only [List.mem_cons, Prod.mk.injEq]
      constructor
      · rintro (⟨rfl, rfl⟩ | h)
        · exact Or.inl ⟨rfl, rfl⟩
        · refine Or.inr ⟨?_, h⟩
          rintro rfl
          rcases h with ⟨rfl, _⟩ | h
          · exact lt_irrefl _ hlt
          · exact lt_asymm hlt (hhead _ h)
      · rintro (⟨rfl, rfl⟩ | ⟨_, h⟩)
        · exact Or.inl ⟨rfl, rfl⟩
        · exact Or.inr h
    · subst heq
      rw [if_neg (lt_irrefl _), if_neg (lt_irrefl _)]
      simp only [List.mem_cons, Prod.mk.injEq]
      constructor
      · rintro (⟨rfl, rfl⟩ | h)
        · exact Or.inl ⟨rfl, rfl⟩
        · refine Or.inr ⟨?_, Or.inr h⟩
          rintro rfl
          have hh := hhead _ h
          exact lt_irrefl _ hh
      · rintro (⟨rfl, rfl⟩ | ⟨hne, h⟩)
        · exact Or.inl ⟨rfl, rfl⟩
        · rcases h with ⟨rfl, _⟩ | h
          · exact absurd rfl hne
          · exact Or.inr h
    · rw [if_neg (lt_asymm hgt), if_pos hgt]
      simp only [List.mem_cons, Prod.mk.injEq, ih htail]
      constructor
      · rintro (⟨rfl, rfl⟩ | h | ⟨hne, h⟩)
        · exact Or.inr ⟨ne_of_lt hgt, Or.inl ⟨rfl, rfl⟩⟩
        · exact Or.inl h
        · exact Or.inr ⟨hne, Or.inr h⟩
      · rintro (h | ⟨hne, h | h⟩)
        · exact Or.inr (Or.inl h)
        · exact Or.inl h
        · exact Or.inr (Or.inr ⟨hne, h⟩)

theorem inv_mapAssign (key value : String) (m : List (String × String))
    (hm : StdMapInv m) : StdMapInv (mapAssign key value m) := by
  induction m with
  | nil => simp [mapAssign, StdMapInv]
  | cons e rest ih =>
    obtain ⟨k, v⟩ := e
    obtain ⟨hhead, htail⟩ := List.pairwise_cons.mp hm
    rw [mapAssign_cons]
    rcases lt_trichotomy key k with hlt | heq | hgt
    · rw [if_pos hlt]
      refine List.pairwise_cons.mpr ⟨?_, hm⟩
      intro x hx
      rcases List.mem_cons.mp hx with rfl | hx
      · exact hlt
      · exact lt_trans hlt (hhead x hx)
    · subst heq
      rw [if_neg (lt_irrefl _), if_neg (lt_irrefl _)]
      exact List.pairwise_cons.mpr ⟨hhead, htail⟩
    · rw [if_neg (lt_asymm hgt), if_pos hgt]
      refine List.pairwise_cons.mpr ⟨?_, ih htail⟩
      rintro ⟨a, b⟩ hx
      rcases (mem_mapAssign key value rest htail a b).mp hx with ⟨rfl, _⟩ | ⟨_, h⟩
      · exact hgt
      · exact hhead _ h

theorem mapAssign_mapAssign (key b c : String) (m : List (String × String)) :
    mapAssign key c (mapAssign key b m) = mapAssign key c m := by
  induction m with
  | nil => simp [mapAssign, strLess_iff]
  | cons e rest ih =>
    obtain ⟨k, v⟩ := e
    rw [mapAssign_cons key b, mapAssign_cons key c k v]
    rcases lt_trichotomy key k with hlt | heq | hgt
    · rw [if_pos hlt, if_pos hlt, mapAssign_cons, if_neg (lt_irrefl _), if_neg (lt_irrefl _)]
    · subst heq
      rw [if_neg (lt_irrefl _), if_neg (lt_irrefl _), if_neg (lt_irrefl _),
        if_neg (lt_irrefl _), mapAssign_cons, if_neg (lt_irrefl _), if_neg (lt_irrefl _)]
    · rw [if_neg (lt_asymm hgt), if_pos hgt, if_neg (lt_asymm hgt), if_pos hgt,
        mapAssign_cons, if_neg (lt_asymm hgt), if_pos hgt, ih]

theorem filter_key_of_lt (key : String) (m : List (String × String))
    (h : ∀ x ∈ m, key < x.1) : m.filter (fun e => decide (e.1 = key)) = [] := by
  apply List.filter_eq_nil_iff.mpr
  intro x hx
  have := h x hx
  simp [ne_of_gt this]

theorem filter_mapAssign (key value : String) (m : List (String × String))
    (hm : StdMapInv m) :
    (mapAssign key value m).filter (fun e => decide (e.1 = key)) = [(key, value)] := by
  induction m with
  | nil => simp [mapAssign]
  | cons e rest ih =>
    obtain ⟨k, v⟩ := e
    obtain ⟨hhead, htail⟩ := List.pairwise_cons.mp hm
    rw [mapAssign_cons]
    rcases lt_trichotomy key k with hlt | heq | hgt
    · rw [if_pos hlt]
      have hall : ∀ x ∈ (k, v) :: rest, key < x.1 := by
        intro x hx
        rcases List.mem_cons.mp hx with rfl | hx
        · exact hlt
        · exact lt_trans hlt (hhead x hx)
      simp [List.filter_cons, filter_key_of_lt key _ hall]
    · subst heq
      rw [if_neg (lt_irrefl _), if_neg (lt_irrefl _)]
      simp [List.filter_cons, filter_key_of_lt key _ hhead]
    · rw [if_neg (lt_asymm hgt), if_pos hgt]
      simp [List.filter_cons, ne_of_lt hgt, ih htail]

theorem runRoutes_snoc (calls : List (String × String)) (c : String × String)
    (t : ShipmentRoute) :
    runRoutes (calls ++ [c]) t = ((runRoutes calls t).addRoute c.1 c.2).1 := by
  simp [runRoutes, List.foldl_append]

theorem lastEnd_snoc (start : String) (calls : List (String × String))
    (c : String × String) :
    lastEnd start (calls ++ [c]) = if c.1 = start then some c.2 else lastEnd start calls := by
  by_cases h : c.1 = start
  · simp [lastEnd, List.find?_cons, h]
  · simp [lastEnd, List.find?_cons, h]

theorem lastEnd_isSome_iff (start : String) (calls : List (String × String)) :
    (∃ e, lastEnd start calls = some e) ↔ start ∈ calls.map Prod.fst := by
  induction calls using List.reverseRecOn with
  | nil => simp [lastEnd]
  | append_singleton l c ih =>
    rw [lastEnd_snoc]
    by_cases h : c.1 = start
    · simp [h]
    · rw [if_neg h, ih]
      simp only [List.map_append, List.map_cons, List.map_nil, List.mem_append,
        List.mem_singleton]
      constructor
      · exact Or.inl
      · rintro (h1 | h1)
        · exact h1
        · exact absurd h1.symm h

theorem runRoutes_inv (calls : List (String × String)) :
    StdMapInv (runRoutes calls { routes := [] }).routes := by
  induction calls using List.reverseRecOn with
  | nil => simp [runRoutes, StdMapInv]
  | append_singleton l c ih =>
    rw [runRoutes_snoc]
    exact inv_mapAssign c.1 c.2 _ ih

theorem mem_runRoutes (calls : List (String × String)) (a b : String) :
    (a, b) ∈ (runRoutes calls { routes := [] }).routes ↔ lastEnd a calls = some b := by
  induction calls using List.reverseRecOn with
  | nil => simp [runRoutes, lastEnd]
  | append_singleton l c ih =>
    rw [runRoutes_snoc, lastEnd_snoc]
    show (a, b) ∈ mapAssign c.1 c.2 (runRoutes l { routes := [] }).routes ↔ _
    rw [mem_mapAssign c.1 c.2 _ (runRoutes_inv l), ih]
    by_cases h : c.1 = a
    · rw [if_pos h]
      constructor
      · rintro (⟨_, rfl⟩ | ⟨hne, _⟩)
        · rfl
        · exact absurd h.symm hne
      · intro hb
        exact Or.inl ⟨h.symm, (Option.some.inj hb).symm⟩
    · rw [if_neg h]
      constructor
      · rintro (⟨rfl, _⟩ | ⟨_, hl⟩)
        · exact absurd rfl h
        · exact hl
      · intro hl
        exact Or.inr ⟨fun heq => h heq.symm, hl⟩

/-! ## Routes are printed in key order, last write wins (C5, C6) -/

/-- C5: after any sequence of `addRoute(start, end)` calls on the empty route
table, `printRoutes` writes one record for each entry of the table in order,
the entries are strictly ascending by start (so no start appears twice), the
starts are exactly the starts that were added, and an entry pairs a start with
an end exactly when that end was given by the last call for that start.  The
calls ("NY","LA"), ("LA","SF"), ("NY","Chicago") leave the entries
("LA","SF"), ("NY","Chicago"). -/
theorem routes_printed_sorted_last_wins (calls : List (String × String)) :
    (runRoutes calls { routes := [] }).printRoutes =
      (runRoutes calls { routes := [] }).routes.map
        (fun route => "Route from " ++ route.1 ++ " to " ++ route.2 ++ "\n") ∧
    (runRoutes calls { routes := [] }).routes.Pairwise (fun x y => x.1 < y.1) ∧
    ((runRoutes calls { routes := [] }).routes.map Prod.fst).Nodup ∧
    (∀ start, start ∈ (runRoutes calls { routes := [] }).routes.map Prod.fst ↔
      start ∈ calls.map Prod.fst) ∧
    (∀ start endLoc, (start, endLoc) ∈ (runRoutes calls { routes := [] }).routes ↔
      lastEnd start calls = some endLoc) ∧
    (runRoutes [("NY", "LA"), ("LA", "SF"), ("NY", "Chicago")] { routes := [] }).routes =
      [("LA", "SF"), ("NY", "Chicago")] ∧
    (runRoutes [("NY", "LA"), ("LA", "SF"), ("NY", "Chicago")] { routes := [] }).printRoutes =
      ["Route from LA to SF\n", "Route from NY to Chicago\n"] := by
  have hinv := runRoutes_inv calls
  refine ⟨rfl, hinv, ?_, ?_, mem_runRoutes calls, by decide, by decide⟩
  · unfold List.Nodup
    rw [List.pairwise_map]
    exact List.Pairwise.imp (fun hlt => ne_of_lt hlt) hinv
  · intro start
    rw [← lastEnd_isSome_iff start calls]
    constructor
    · intro hmem
      obtain ⟨e, he, hfst⟩ := List.mem_map.mp hmem
      obtain ⟨a, b⟩ := e
      simp only at hfst
      subst hfst
      exact ⟨b, (mem_runRoutes calls a b).mp he⟩
    · rintro ⟨e, he⟩
      exact List.mem_map.mpr ⟨(start, e), (mem_runRoutes calls start e).mpr he, rfl⟩

/-- C6: on a route table (entries strictly ascending by start, as in every
`std::map`), `addRoute(A, B)` followed by `addRoute(A, C)` leaves exactly one
entry with start `A`, namely `(A, C)`; the table equals the one `addRoute(A,
C)` alone gives; the entries with any other start are those from before the
two calls; and the registry's `addRoute` does the same on its own table. -/
theorem addRoute_twice_overwrites (t : ShipmentRoute) (sys : LogisticsSystem)
    (A B C : String) (h : StdMapInv t.routes) :
    ((t.addRoute A B).1.addRoute A C).1.routes.filter (fun e => decide (e.1 = A)) = [(A, C)] ∧
    ((t.addRoute A B).1.addRoute A C).1 = (t.addRoute A C).1 ∧
    (∀ start endLoc, start ≠ A →
      ((start, endLoc) ∈ ((t.addRoute A B).1.addRoute A C).1.routes ↔
        (start, endLoc) ∈ t.routes)) ∧
    (sys.addRoute A C).1.shipmentRoutes = (sys.shipmentRoutes.addRoute A C).1 ∧
    ((sys.addRoute A B).1.addRoute A C).1 = (sys.addRoute A C).1 := by
  have hsame : ((t.addRoute A B).1.addRoute A C).1 = (t.addRoute A C).1 := by
    simp [ShipmentRoute.addRoute, mapAssign_mapAssign]
  refine ⟨?_, hsame, ?_, rfl, ?_⟩
  · rw [hsame]
    exact filter_mapAssign A C t.routes h
  · intro start endLoc hne
    rw [hsame]
    show (start, endLoc) ∈ mapAssign A C t.routes ↔ _
    rw [mem_mapAssign A C t.routes h]
    constructor
    · rintro (⟨rfl, _⟩ | ⟨_, hm⟩)
      · exact absurd rfl hne
      · exact hm
    · intro hm
      exact Or.inr ⟨hne, hm⟩
  · simp [LogisticsSystem.addRoute, ShipmentRoute.addRoute, mapAssign_mapAssign]

theorem addRoute_twice_overwrites_witness :
    StdMapInv sampleRoutes.routes ∧
    ((sampleRoutes.addRoute "NY" "Boston").1.addRoute "NY" "Chicago").1.routes.filter
      (fun e => decide (e.1 = "NY")) = [("NY", "Chicago")] ∧
    ((sampleRoutes.addRoute "NY" "Boston").1.addRoute "NY" "Chicago").1 =
      (sampleRoutes.addRoute "NY" "Chicago").1 :=
  have hinv : StdMapInv sampleRoutes.routes := by
    simp only [StdMapInv, sampleRoutes, List.pairwise_cons, List.mem_singleton,
      List.not_mem_nil, forall_eq, List.Pairwise.nil, and_true, false_implies, implies_true]
    exact (strLess_iff "LA" "NY").mp (by decide)
  ⟨hinv,
    (addRoute_twice_overwrites sampleRoutes sampleSystem "NY" "Boston" "Chicago" hinv).1,
    (addRoute_twice_overwrites sampleRoutes sampleSystem "NY" "Boston" "Chicago" hinv).2.1⟩

end Logistics
